import Mathlib

/-!
Shallow embedding of the resilient fetch pipeline of `hltv-aio.py`
(class `Hltv`): configuration update (`config`), proxy peek
(`get_proxy`), proxy rotation (`switch_proxy`, memory- and file-backed),
challenge detection (`cloudflare_check`), backoff, and the retry loop
(`fetch` / `call_again`).

Modelling conventions:
* A parsed document (`BeautifulSoup` tree) is a flat list of elements,
  each carrying an optional `id` attribute and its text content; the
  parser `f` is the identity on these already-structured bodies, so the
  only document operations the source uses — `find(id=...)` and
  `get_text()` — are `List.find?` and the `text` field.
* The transport is a script: a list of per-attempt responses (either a
  raised transport exception or an HTTP status with a body).  The
  recursive retry loop is run against the script; an exhausted script
  means the loop is still retrying (the source loop is unbounded).
* Python strings are `String` (or `List Char` where the file rewrite
  needs byte-level overwrite semantics); Python `strip` is modelled on
  ASCII whitespace.
-/

namespace HltvAio

/-- One element of a parsed document: its `id` attribute (if any) and the
text returned by `get_text()`. -/
structure Element where
  idAttr : Option String
  text : String
deriving DecidableEq, Repr

/-- A parsed document is the list of its elements, in document order. -/
abbrev Document := List Element

/-- The exact challenge phrase tested on line 91 of the source. -/
def phrase : String := "Enable JavaScript and cookies to continue"

/-- The element id looked up on line 89 of the source. -/
def challengeId : String := "challenge-error-title"

/-- `page.find(id=i)`: the first element whose id attribute equals `i`. -/
def find_by_id (doc : Document) (i : String) : Option Element :=
  doc.find? (fun el => el.idAttr == some i)

/-- `Hltv.cloudflare_check` (source lines 87–93): parse the body, look up
the first element with id `challenge-error-title`, and report a challenge
page exactly when that element exists and its text equals the phrase. -/
def cloudflare_check (body : Document) : Bool :=
  match find_by_id body challengeId with
  | some el => phrase == el.text
  | none => false

/-- Spec-side challenge detector, written from the spec's words for the
refinement comparison: "a parsed document contains an element whose exact
text equals the known challenge phrase". -/
def challenge_detector_spec (body : Document) : Bool :=
  body.any (fun el => el.text == phrase)

/-- The backoff step inlined in `Hltv.call_again` (source lines 102–104):
`if delay < self.MAX_DELAY: delay += 1` — otherwise the delay is left
unchanged (the `else` branch only logs a warning). -/
def nextDelay (delay maxDelay : Nat) : Nat :=
  if delay < maxDelay then delay + 1 else delay

/-- Memory-backed branch of `Hltv.switch_proxy` (source line 82):
`PROXY_LIST = PROXY_LIST[1:] + [PROXY_LIST[0]]`.  The `proxy` argument is
not consulted.  On an empty list the source raises `IndexError`; that
case is unreachable from `fetch`, which raises inside `get_proxy` first,
and no theorem below relies on the value returned here for `[]`. -/
def switch_proxy_mem (proxy : String) (l : List String) : List String :=
  match l with
  | [] => []
  | p :: rest => rest ++ [p]

/-! ### Configuration (`Hltv.__init__` and `Hltv.config`) -/

/-- The configuration attributes of an `Hltv` instance.  `PROXY_FILE_PATH`
does not exist at construction time; it is created only by `config`
(source line 55) and read by no other method. -/
structure HltvConfig where
  MAX_DELAY : Nat
  timeout : Nat
  USE_PROXY : Bool
  PROXY_PATH : Option String
  PROXY_FILE_PATH : Option String
  PROXY_LIST : Option (List String)
  DEBUG : Bool
deriving DecidableEq, Repr

/-- Python truthiness of an optional integer argument (`if max_delay:`). -/
def natTruthy : Option Nat → Bool
  | some n => n != 0
  | none => false

/-- Python truthiness of an optional boolean argument (`if use_proxy:`). -/
def boolTruthy : Option Bool → Bool
  | some b => b
  | none => false

/-- Python truthiness of an optional string argument. -/
def strTruthy : Option String → Bool
  | some s => !s.isEmpty
  | none => false

/-- Python truthiness of an optional list argument. -/
def listTruthy : Option (List String) → Bool
  | some l => !l.isEmpty
  | none => false

/-- `Hltv.config` (source lines 42–61): each argument overwrites the
corresponding attribute only when truthy.  Note that `proxy_file_path`
is stored into `PROXY_FILE_PATH`, not into the `PROXY_PATH` attribute
that `get_proxy` and `switch_proxy` read. -/
def config (st : HltvConfig) (max_delay : Option Nat) (timeout : Option Nat)
    (use_proxy : Option Bool) (proxy_file_path : Option String)
    (proxy_list : Option (List String)) (debug : Option Bool) : HltvConfig :=
  let st := if natTruthy max_delay then { st with MAX_DELAY := max_delay.getD 0 } else st
  let st := if natTruthy timeout then { st with timeout := timeout.getD 0 } else st
  let st := if boolTruthy use_proxy then { st with USE_PROXY := use_proxy.getD false } else st
  let st := if strTruthy proxy_file_path then
      { st with PROXY_FILE_PATH := proxy_file_path } else st
  let st := if listTruthy proxy_list then { st with PROXY_LIST := proxy_list } else st
  let st := if boolTruthy debug then { st with DEBUG := debug.getD false } else st
  st

/-! ### File-backed pool (`get_proxy` / `switch_proxy`, file branch)

The backing file's content is a `List Char`.  `readlines` splits into
lines that keep their terminating newline; `strip` removes leading and
trailing whitespace.  The rewrite in `switch_proxy` opens the file in
`r+` mode, seeks to 0 and writes without truncating, so bytes of the
old content beyond the written length survive. -/

/-- Python `readlines`: split into lines, each keeping its trailing
newline; a final fragment without a newline is kept as-is. -/
def splitLinesKeep : List Char → List Char → List (List Char)
  | [], acc => if acc.isEmpty then [] else [acc.reverse]
  | c :: rest, acc =>
    if c = '\n' then (acc.reverse ++ ['\n']) :: splitLinesKeep rest []
    else splitLinesKeep rest (c :: acc)

/-- Python `str.strip()` on ASCII whitespace. -/
def stripChars (l : List Char) : List Char :=
  ((l.dropWhile (fun c => c.isWhitespace)).reverse.dropWhile
    (fun c => c.isWhitespace)).reverse

/-- File branch of `Hltv.get_proxy` (source lines 64–68): read the first
line, strip it, and return it when non-empty; otherwise the Python
function falls through and returns `None`. -/
def get_proxy_file (content : List Char) : Option (List Char) :=
  let line := (splitLinesKeep content []).headD []
  let p := stripChars line
  if p.isEmpty then none else some p

/-- File branch of `Hltv.switch_proxy` (source lines 73–80): read all
lines, seek to 0, write back every line whose stripped content differs
from `proxy`, then write `proxy` plus a newline.  The file is not
truncated, so old bytes past the written region remain. -/
def switchProxyFile (content : List Char) (proxy : List Char) : List Char :=
  let lines := splitLinesKeep content []
  let kept := lines.filter (fun line => stripChars line != proxy)
  let written := kept.flatten ++ proxy ++ ['\n']
  written ++ content.drop written.length

/-- Truthiness of `self.PROXY_PATH` (`if self.PROXY_PATH:`). -/
def pathTruthy : Option String → Bool
  | some s => !s.isEmpty
  | none => false

/-- Outcome of `Hltv.get_proxy`: a returned value (possibly Python
`None`), or the uncaught `IndexError`/`TypeError` raised by
`self.PROXY_LIST[0]` when the list is empty or absent. -/
inductive PeekOutcome where
  | ok : Option String → PeekOutcome
  | err : PeekOutcome
deriving DecidableEq, Repr

/-- `Hltv.get_proxy` (source lines 63–70): with a truthy `PROXY_PATH`,
read the first line of the file and return it stripped when non-empty
(`None` otherwise, without error); else return `PROXY_LIST[0]`, which
raises when the list is empty or `None`. -/
def get_proxy (proxyPath : Option String) (fileContent : List Char)
    (proxyList : Option (List String)) : PeekOutcome :=
  if pathTruthy proxyPath then
    .ok ((get_proxy_file fileContent).map (fun l => String.mk l))
  else
    match proxyList with
    | none => .err
    | some [] => .err
    | some (p :: _) => .ok (some p)

/-! ### The retry loop (`Hltv.fetch` / `Hltv.call_again`)

`fetch` is modelled against a script of per-attempt transport results.
The pool is the in-memory `PROXY_LIST` (the claims about the retry loop
all use the in-memory backend; the file backend's rotation is modelled
separately above).  Each attempt records the delay it slept.  -/

/-- What the transport yields for one attempt: a raised exception from
the caught classes (proxy/response/OS errors, disconnect, timeout), or
an HTTP response with a status and a parsed body. -/
inductive Response where
  | transportError : Response
  | http : Nat → Document → Response
deriving DecidableEq, Repr

/-- Result of running `fetch` against a finite script: a returned
document together with the slept delays and the final pool; the
uncaught error from peeking an empty pool; or an exhausted script while
the (unbounded) loop is still retrying. -/
inductive FetchOutcome where
  | success : Document → List Nat → List String → FetchOutcome
  | errored : FetchOutcome
  | retrying : FetchOutcome
deriving DecidableEq, Repr

/-- `Hltv.fetch` with `Hltv.call_again` inlined (source lines 95–138).
Per attempt: when proxy mode is on, peek the pool (raising on an empty
pool); sleep `delay`; consume the next scripted result.  A transport
exception, a 403/404 status, or a body flagged by `cloudflare_check`
retries via `call_again`: with proxy mode on, rotate the pool and reset
the delay to 0; with proxy mode off, keep the pool and advance the
delay with `nextDelay`.  Any other response returns its parsed body. -/
def fetchGo (useProxy : Bool) (maxDelay : Nat) (pool : List String)
    (responses : List Response) (delay : Nat) (sleeps : List Nat) : FetchOutcome :=
  if useProxy && pool.isEmpty then .errored
  else
    match responses with
    | [] => .retrying
    | .transportError :: rest =>
      if useProxy then
        fetchGo useProxy maxDelay (switch_proxy_mem (pool.headD "") pool) rest 0
          (sleeps ++ [delay])
      else
        fetchGo useProxy maxDelay pool rest (nextDelay delay maxDelay) (sleeps ++ [delay])
    | .http status body :: rest =>
      if status == 403 || status == 404 then
        if useProxy then
          fetchGo useProxy maxDelay (switch_proxy_mem (pool.headD "") pool) rest 0
            (sleeps ++ [delay])
        else
          fetchGo useProxy maxDelay pool rest (nextDelay delay maxDelay) (sleeps ++ [delay])
      else if cloudflare_check body then
        if useProxy then
          fetchGo useProxy maxDelay (switch_proxy_mem (pool.headD "") pool) rest 0
            (sleeps ++ [delay])
        else
          fetchGo useProxy maxDelay pool rest (nextDelay delay maxDelay) (sleeps ++ [delay])
      else
        .success body (sleeps ++ [delay]) pool

/-- A scripted result that takes the retry path of `fetch`: a transport
exception, a 403/404 status, or a challenge-flagged body. -/
def failsAttempt : Response → Bool
  | .transportError => true
  | .http status body => (status == 403 || status == 404) || cloudflare_check body

/-! ## Helper lemmas -/

/-- The memory-backed rotation is a one-step left rotation of the list. -/
lemma switch_proxy_mem_eq_rotate (e : String) (l : List String) :
    switch_proxy_mem e l = l.rotate 1 := by
  cases l with
  | nil => simp [switch_proxy_mem]
  | cons p rest =>
    show rest ++ [p] = (p :: rest).rotate (0 + 1)
    rw [List.rotate_cons_succ, List.rotate_zero]

/-- Iterating the memory-backed rotation `n` times rotates by `n`. -/
lemma switch_proxy_mem_iterate (e : String) (n : Nat) (l : List String) :
    (fun l' => switch_proxy_mem e l')^[n] l = l.rotate n := by
  induction n generalizing l with
  | zero => simp
  | succ k ih =>
    rw [Function.iterate_succ_apply]
    show (fun l' => switch_proxy_mem e l')^[k] (switch_proxy_mem e l) = _
    rw [switch_proxy_mem_eq_rotate, ih, List.rotate_rotate, Nat.add_comm]

/-- `cloudflare_check` succeeds exactly when the document splits around a
first element carrying id `challenge-error-title` whose text is the
challenge phrase. -/
lemma cloudflare_check_eq_true_iff (body : Document) :
    cloudflare_check body = true ↔
      ∃ pre el post, body = pre ++ el :: post ∧
        (∀ e ∈ pre, e.idAttr ≠ some challengeId) ∧
        el.idAttr = some challengeId ∧ el.text = phrase := by
  constructor
  · intro h
    unfold cloudflare_check find_by_id at h
    cases hf : body.find? (fun el => el.idAttr == some challengeId) with
    | none => rw [hf] at h; exact absurd h (by simp)
    | some el =>
      rw [hf] at h
      obtain ⟨hp, as, bs, hsplit, hall⟩ := List.find?_eq_some.mp hf
      refine ⟨as, el, bs, hsplit, ?_, by simpa using hp, by simp at h; exact h.symm⟩
      intro e he
      have := hall e he
      simpa using this
  · rintro ⟨pre, el, post, rfl, hpre, hid, htext⟩
    unfold cloudflare_check find_by_id
    have hf : (pre ++ el :: post).find? (fun e => e.idAttr == some challengeId)
        = some el := by
      apply List.find?_eq_some.mpr
      refine ⟨by simp [hid], pre, post, rfl, ?_⟩
      intro a ha
      simp [hpre a ha]
    rw [hf]
    simp [htext]

/-- A list whose head fails the predicate is unchanged by `dropWhile`. -/
lemma dropWhile_eq_self_of_all_false {p : Char → Bool} (l : List Char)
    (h : ∀ c ∈ l, p c = false) : l.dropWhile p = l := by
  cases l with
  | nil => rfl
  | cons c t =>
    exact List.dropWhile_cons_of_neg (by simp [h c (List.mem_cons_self c t)])

/-- Splitting a newline-terminated first segment peels off exactly that
segment (with its newline), regardless of the accumulator. -/
lemma splitLinesKeep_append_newline (e : List Char) (s : List Char)
    (acc : List Char) (he : '\n' ∉ e) :
    splitLinesKeep (e ++ '\n' :: s) acc
      = (acc.reverse ++ e ++ ['\n']) :: splitLinesKeep s [] := by
  induction e generalizing acc with
  | nil => simp [splitLinesKeep]
  | cons c e ih =>
    have hc : c ≠ '\n' := fun h => he (h ▸ List.mem_cons_self c e)
    have he' : '\n' ∉ e := fun h => he (List.mem_cons_of_mem _ h)
    show splitLinesKeep (c :: (e ++ '\n' :: s)) acc = _
    rw [splitLinesKeep, if_neg hc, ih (c :: acc) he']
    simp

/-- The lines of a file whose entries are newline-free and
newline-terminated are exactly those entries with their newlines. -/
lemma splitLinesKeep_flatten (entries : List (List Char))
    (h : ∀ e ∈ entries, '\n' ∉ e) :
    splitLinesKeep ((entries.map (fun e => e ++ ['\n'])).flatten) []
      = entries.map (fun e => e ++ ['\n']) := by
  induction entries with
  | nil => rfl
  | cons e rest ih =>
    have he : '\n' ∉ e := h e (List.mem_cons_self e rest)
    have hrest : ∀ x ∈ rest, '\n' ∉ x := fun x hx => h x (List.mem_cons_of_mem _ hx)
    simp only [List.map_cons, List.flatten_cons, List.append_assoc, List.singleton_append]
    rw [splitLinesKeep_append_newline e _ [] he, ih hrest]
    simp

/-- Stripping a newline-terminated, whitespace-free, non-empty entry
recovers the entry. -/
lemma stripChars_append_newline (e : List Char) (he : e ≠ [])
    (hw : ∀ c ∈ e, c.isWhitespace = false) :
    stripChars (e ++ ['\n']) = e := by
  unfold stripChars
  have h1 : (e ++ ['\n']).dropWhile (fun c => c.isWhitespace) = e ++ ['\n'] := by
    cases e with
    | nil => exact absurd rfl he
    | cons c e' =>
      rw [List.cons_append]
      exact List.dropWhile_cons_of_neg
        (by simp [hw c (List.mem_cons_self c e')])
  rw [h1]
  have h2 : (e ++ ['\n']).reverse = '\n' :: e.reverse := by simp
  rw [h2, List.dropWhile_cons_of_pos (by decide)]
  rw [dropWhile_eq_self_of_all_false e.reverse
    (fun c hc => hw c (List.mem_reverse.mp hc))]
  exact List.reverse_reverse e

/-! ## Claims -/

/-- Claim C3, counterexample: the claim states `nextDelay(d, max) = max`
for every `d ≥ max`, but the source leaves the delay unchanged when
`delay < MAX_DELAY` fails, so `nextDelay 20 15 = 20`, not `15`. -/
theorem c3_counterexample : ¬ (nextDelay 20 15 = 15) := by decide

/-- Claim C3, amended: for `d < max` the next delay is `d + 1`; for
`d ≥ max` the delay is left unchanged (equal to `max` only when
`d = max`), hence idempotent at and above the ceiling. -/
theorem c3_backoff_step :
    (∀ d m : Nat, d < m → nextDelay d m = d + 1)
    ∧ (∀ d m : Nat, m ≤ d → nextDelay d m = d) := by
  constructor
  · intro d m h
    simp [nextDelay, h]
  · intro d m h
    simp [nextDelay, Nat.not_lt.mpr h]

/-- Witness for C3 at concrete delays 3, 20 and 15 with ceiling 15. -/
theorem c3_backoff_step_witness :
    nextDelay 3 15 = 4 ∧ nextDelay 20 15 = 20 ∧ nextDelay 15 15 = 15 :=
  ⟨c3_backoff_step.1 3 15 (by decide), c3_backoff_step.2 20 15 (by decide),
    c3_backoff_step.2 15 15 (by decide)⟩

/-- Claim C10: on any non-empty in-memory pool the rotation moves the
head to the tail — a left rotation — for every endpoint argument, and
the result never depends on that argument. -/
theorem c10_rotation_ignores_endpoint :
    ∀ (e e' p : String) (rest : List String),
      switch_proxy_mem e (p :: rest) = rest ++ [p] ∧
      switch_proxy_mem e (p :: rest) = switch_proxy_mem e' (p :: rest) :=
  fun _ _ _ _ => ⟨rfl, rfl⟩

/-- Claim C4, counterexample: in-memory rotation ignores its endpoint
argument, so rotating `["a", "b"]` at `"b"` yields `["b", "a"]` — not
the remove-first-occurrence-and-append result `["a", "b"]` the claim
predicts. -/
theorem c4_counterexample :
    ¬ (switch_proxy_mem "b" ["a", "b"] = (["a", "b"].erase "b") ++ ["b"]) := by
  decide

/-- Claim C4, amended: the in-memory rotation left-rotates the pool
regardless of the endpoint argument; it is a pure permutation (the
multiset of contents is invariant), rotating a pool of size N exactly N
times restores the original order, and it coincides with
remove-first-occurrence-and-append precisely in the sequential-use case
where the argument is the pool's current head.  (The file-backed rewrite
removes all matching lines, settled under C5.) -/
theorem c4_rotation_memory :
    (∀ (e : String) (l : List String), (switch_proxy_mem e l).Perm l)
    ∧ (∀ (e : String) (l : List String),
        (fun l' => switch_proxy_mem e l')^[l.length] l = l)
    ∧ (∀ (p : String) (rest : List String),
        switch_proxy_mem p (p :: rest) = ((p :: rest).erase p) ++ [p]) := by
  refine ⟨fun e l => ?_, fun e l => ?_, fun p rest => ?_⟩
  · cases l with
    | nil => exact List.Perm.refl _
    | cons p rest => exact List.perm_append_singleton p rest
  · rw [switch_proxy_mem_iterate, List.rotate_length]
  · simp [switch_proxy_mem]

/-- Claim C8, counterexample: a document whose only element has no id
attribute but carries the exact challenge phrase as text satisfies the
claim's detector (some element's text equals the phrase) yet
`cloudflare_check` returns false, because the source only inspects the
element with id `challenge-error-title`. -/
theorem c8_counterexample :
    cloudflare_check [⟨none, phrase⟩] = false ∧
    challenge_detector_spec [⟨none, phrase⟩] = true := by
  decide

/-- Claim C8, amended: the detector returns true iff the first element
whose id attribute is `challenge-error-title` exists and its exact text
equals the challenge phrase; it returns false on the empty document and
on a document whose challenge element carries a similar but not
identical phrase. -/
theorem c8_detector :
    (∀ body : Document, cloudflare_check body = true ↔
      ∃ pre el post, body = pre ++ el :: post ∧
        (∀ e ∈ pre, e.idAttr ≠ some challengeId) ∧
        el.idAttr = some challengeId ∧ el.text = phrase)
    ∧ cloudflare_check [] = false
    ∧ cloudflare_check
        [⟨some challengeId, "Enable JavaScript and cookies to continue."⟩] = false := by
  refine ⟨fun body => cloudflare_check_eq_true_iff body, rfl, by decide⟩

/-- Claim C7: with proxy mode off and `MAX_DELAY = 15`, a script of two
403 responses followed by a 200 response with a non-challenge body makes
`fetch` succeed on the third attempt, sleeping 0, 1 and 2 seconds on the
three attempts, and return the document parsed from the third body. -/
theorem c7_backoff_scenario :
    fetchGo false 15 []
      [Response.http 403 [], Response.http 403 [],
        Response.http 200 [⟨none, "content"⟩]] 0 []
      = FetchOutcome.success [⟨none, "content"⟩] [0, 1, 2] [] := by
  decide

/-- Claim C2: on any failed attempt (transport error, 403/404 status, or
challenge body), proxy mode on rotates the in-memory pool — the peeked
head, i.e. the proxy the failed attempt used, moves to the tail — and
retries with delay reset to 0 against the new pool; proxy mode off keeps
the pool and retries with the delay advanced by `nextDelay`.  In the
scenario with pool `[P1, P2, P3]` and transport failures for P1 and P2,
`fetch` succeeds through P3 and the final pool is `[P3, P1, P2]`. -/
theorem c2_retry_escalation :
    (∀ (maxD : Nat) (p : String) (rest : List String) (r : Response)
        (script : List Response) (d : Nat) (s : List Nat),
        failsAttempt r = true →
        fetchGo true maxD (p :: rest) (r :: script) d s
          = fetchGo true maxD (rest ++ [p]) script 0 (s ++ [d]))
    ∧ (∀ (maxD : Nat) (pool : List String) (r : Response)
        (script : List Response) (d : Nat) (s : List Nat),
        failsAttempt r = true →
        fetchGo false maxD pool (r :: script) d s
          = fetchGo false maxD pool script (nextDelay d maxD) (s ++ [d]))
    ∧ fetchGo true 15 ["P1", "P2", "P3"]
        [Response.transportError, Response.transportError,
          Response.http 200 [⟨none, "content"⟩]] 0 []
        = FetchOutcome.success [⟨none, "content"⟩] [0, 0, 0] ["P3", "P1", "P2"] := by
  refine ⟨?_, ?_, by decide⟩
  · intro maxD p rest r script d s hr
    rw [fetchGo.eq_def]
    cases r with
    | transportError => simp [switch_proxy_mem]
    | http status body =>
      by_cases h403 : (status == 403 || status == 404) = true
      · simp [h403, switch_proxy_mem]
      · have hcf : cloudflare_check body = true := by
          simp only [failsAttempt, Bool.or_eq_true] at hr
          rcases hr with h | h
          · rcases h with h | h <;> simp [h] at h403
          · exact h
        simp [h403, hcf, switch_proxy_mem]
  · intro maxD pool r script d s hr
    rw [fetchGo.eq_def]
    cases r with
    | transportError => simp
    | http status body =>
      by_cases h403 : (status == 403 || status == 404) = true
      · simp [h403]
      · have hcf : cloudflare_check body = true := by
          simp only [failsAttempt, Bool.or_eq_true] at hr
          rcases hr with h | h
          · rcases h with h | h <;> simp [h] at h403
          · exact h
        simp [h403, hcf]

/-- Witness for C2: a transport failure in proxy mode rotates `["a","b"]`
to `["b","a"]` and resets the delay; a 403 without proxy mode advances
the delay from 3 to `nextDelay 3 15`. -/
theorem c2_retry_escalation_witness :
    fetchGo true 15 ["a", "b"] [Response.transportError] 2 []
      = fetchGo true 15 ["b", "a"] [] 0 [2]
    ∧ fetchGo false 15 [] [Response.http 403 []] 3 []
      = fetchGo false 15 [] [] (nextDelay 3 15) [3] :=
  ⟨c2_retry_escalation.1 15 "a" ["b"] Response.transportError [] 2 [] (by decide),
    c2_retry_escalation.2.1 15 [] (Response.http 403 []) [] 3 [] (by decide)⟩

/-- Witness for C8: a document whose sole element carries the challenge
id and the exact phrase is flagged by the detector. -/
theorem c8_detector_witness :
    cloudflare_check [Element.mk (some challengeId) phrase] = true :=
  (c8_detector.1 [Element.mk (some challengeId) phrase]).mpr
    ⟨[], ⟨some challengeId, phrase⟩, [], rfl, by simp, rfl, rfl⟩

/-- Claim C1, counterexample: a single 500 response whose body carries
the exact challenge phrase in an element without the challenge id is
returned as success — `fetch` returns a body containing the phrase, and
it returns without ever observing a 200 response. -/
theorem c1_counterexample :
    fetchGo false 15 [] [Response.http 500 [⟨none, phrase⟩]] 0 []
      = FetchOutcome.success [⟨none, phrase⟩] [0] []
    ∧ challenge_detector_spec [⟨none, phrase⟩] = true := by
  decide

/-- Claim C1, amended: `fetch` never returns a document flagged by
`cloudflare_check` (first element with id `challenge-error-title` whose
exact text is the challenge phrase): every returned document is the body
of a scripted response whose status is neither 403 nor 404 and whose
body the detector does not flag; and whenever the detector flags a
response body, `fetch` retries (here stated for proxy mode off, where
the retry advances the delay). -/
theorem c1_no_challenge_success :
    (∀ (u : Bool) (m : Nat) (pool : List String) (script : List Response)
        (d : Nat) (s : List Nat) (doc : Document) (sl : List Nat) (fp : List String),
        fetchGo u m pool script d s = FetchOutcome.success doc sl fp →
        cloudflare_check doc = false ∧
          ∃ status, Response.http status doc ∈ script ∧ status ≠ 403 ∧ status ≠ 404)
    ∧ (∀ (m : Nat) (pool : List String) (status : Nat) (body : Document)
        (rest : List Response) (d : Nat) (s : List Nat),
        cloudflare_check body = true →
        fetchGo false m pool (Response.http status body :: rest) d s
          = fetchGo false m pool rest (nextDelay d m) (s ++ [d])) := by
  constructor
  · intro u m pool script d s doc sl fp
    cases u with
    | false =>
      induction script generalizing pool d s with
      | nil =>
        intro h
        rw [fetchGo.eq_def] at h
        simp at h
      | cons r rest ih =>
        intro h
        rw [fetchGo.eq_def] at h
        cases r with
        | transportError =>
          simp at h
          obtain ⟨hcf, status, hmem, h403, h404⟩ := ih _ _ _ h
          exact ⟨hcf, status, List.mem_cons_of_mem _ hmem, h403, h404⟩
        | http status body =>
          by_cases h403 : (status == 403 || status == 404) = true
          · simp [h403] at h
            obtain ⟨hcf, status', hmem, h403', h404'⟩ := ih _ _ _ h
            exact ⟨hcf, status', List.mem_cons_of_mem _ hmem, h403', h404'⟩
          · by_cases hcf : cloudflare_check body = true
            · simp [h403, hcf] at h
              obtain ⟨hcf', status', hmem, h403', h404'⟩ := ih _ _ _ h
              exact ⟨hcf', status', List.mem_cons_of_mem _ hmem, h403', h404'⟩
            · simp [h403, hcf] at h
              obtain ⟨hbd, hsl, hfp⟩ := h
              subst hbd
              refine ⟨by simpa using hcf, status, List.mem_cons_self _ _, ?_, ?_⟩
              · intro hs
                exact h403 (by simp [hs])
              · intro hs
                exact h403 (by simp [hs])
    | true =>
      induction script generalizing pool d s with
      | nil =>
        intro h
        rw [fetchGo.eq_def] at h
        by_cases hp : pool.isEmpty <;> simp [hp] at h
      | cons r rest ih =>
        intro h
        rw [fetchGo.eq_def] at h
        cases hpool : pool with
        | nil => simp [hpool] at h
        | cons p ptl =>
          rw [hpool] at h
          cases r with
          | transportError =>
            simp at h
            obtain ⟨hcf, status, hmem, h403, h404⟩ := ih _ _ _ h
            exact ⟨hcf, status, List.mem_cons_of_mem _ hmem, h403, h404⟩
          | http status body =>
            by_cases h403 : (status == 403 || status == 404) = true
            · simp [h403] at h
              obtain ⟨hcf, status', hmem, h403', h404'⟩ := ih _ _ _ h
              exact ⟨hcf, status', List.mem_cons_of_mem _ hmem, h403', h404'⟩
            · by_cases hcf : cloudflare_check body = true
              · simp [h403, hcf] at h
                obtain ⟨hcf', status', hmem, h403', h404'⟩ := ih _ _ _ h
                exact ⟨hcf', status', List.mem_cons_of_mem _ hmem, h403', h404'⟩
              · simp [h403, hcf] at h
                obtain ⟨hbd, hsl, hfp⟩ := h
                subst hbd
                refine ⟨by simpa using hcf, status, List.mem_cons_self _ _, ?_, ?_⟩
                · intro hs
                  exact h403 (by simp [hs])
                · intro hs
                  exact h403 (by simp [hs])
  · intro m pool status body rest d s hcf
    rw [fetchGo.eq_def]
    by_cases h403 : (status == 403 || status == 404) = true
    · simp [h403]
    · simp [h403, hcf]

/-- Witness for C1: a successful run through a plain 200 response yields
an unflagged document from that response, and a challenge-flagged 200
body makes `fetch` retry with the advanced delay. -/
theorem c1_no_challenge_success_witness :
    (cloudflare_check [⟨none, "content"⟩] = false ∧
      ∃ status, Response.http status [⟨none, "content"⟩]
          ∈ [Response.http 200 [⟨none, "content"⟩]] ∧ status ≠ 403 ∧ status ≠ 404)
    ∧ fetchGo false 15 [] [Response.http 200 [⟨some challengeId, phrase⟩]] 0 []
        = fetchGo false 15 [] [] (nextDelay 0 15) ([] ++ [0]) :=
  ⟨c1_no_challenge_success.1 false 15 [] [Response.http 200 [⟨none, "content"⟩]]
      0 [] [⟨none, "content"⟩] [0] [] (by decide),
    c1_no_challenge_success.2 15 [] 200 [⟨some challengeId, phrase⟩] [] 0 [] (by decide)⟩

/-- Claim C6, counterexample: with proxy mode on and a file-backed pool
whose file is empty, `get_proxy` does not fail — it returns Python
`None` (and `fetch` would proceed without a proxy) instead of raising a
configuration error. -/
theorem c6_counterexample :
    get_proxy (some "proxies.txt") [] none = PeekOutcome.ok none
    ∧ PeekOutcome.ok (none : Option String) ≠ PeekOutcome.err := by
  decide

/-- Claim C6, amended: `peek` on a non-empty in-memory pool returns the
head without mutation, and on a non-empty well-formed file-backed pool
returns the stripped first line; an empty or absent in-memory pool
raises an error that propagates to the caller immediately — `fetch`
errors out without consuming a single attempt, so it is never retried —
while an empty file-backed pool yields `None` without error. -/
theorem c6_peek :
    (∀ (p : String) (rest : List String) (fc : List Char),
        get_proxy none fc (some (p :: rest)) = PeekOutcome.ok (some p))
    ∧ (∀ fc : List Char, get_proxy none fc (some []) = PeekOutcome.err)
    ∧ (∀ fc : List Char, get_proxy none fc none = PeekOutcome.err)
    ∧ (∀ (path : String) (e s : List Char) (pl : Option (List String)),
        path ≠ "" → e ≠ [] → (∀ c ∈ e, c.isWhitespace = false) →
        get_proxy (some path) (e ++ '\n' :: s) pl = PeekOutcome.ok (some (String.mk e)))
    ∧ (∀ (m d : Nat) (script : List Response) (s : List Nat),
        fetchGo true m [] script d s = FetchOutcome.errored) := by
  refine ⟨fun p rest fc => rfl, fun fc => rfl, fun fc => rfl, ?_, ?_⟩
  · intro path e s pl hpath he hw
    have hnl : '\n' ∉ e := by
      intro hmem
      have := hw _ hmem
      simp at this
    have hp : pathTruthy (some path) = true := by
      have hE : path.isEmpty = false := by
        rw [Bool.eq_false_iff]
        intro hE
        exact hpath ((String.isEmpty_iff path).mp hE)
      simp [pathTruthy, hE]
    unfold get_proxy
    rw [if_pos hp]
    unfold get_proxy_file
    rw [splitLinesKeep_append_newline e s [] hnl]
    simp only [List.reverse_nil, List.nil_append, List.headD_cons]
    rw [stripChars_append_newline e he hw]
    simp [he]
  · intro m d script s
    rw [fetchGo.eq_def]
    simp

/-- Witness for C6 at concrete pools: in-memory head `"a"`, a one-line
file `"p\n"`, and the immediate error of proxy mode over an empty
in-memory pool. -/
theorem c6_peek_witness :
    get_proxy none [] (some ["a", "b"]) = PeekOutcome.ok (some "a")
    ∧ get_proxy (some "f") ['p', '\n'] none = PeekOutcome.ok (some "p")
    ∧ fetchGo true 15 [] [] 0 [] = FetchOutcome.errored :=
  ⟨c6_peek.1 "a" ["b"] [],
    c6_peek.2.2.2.1 "f" ['p'] [] none (by decide) (by decide) (by decide),
    c6_peek.2.2.2.2 15 0 [] []⟩

/-- Claim C9: `config(proxy_file_path=...)` stores the new path into the
`PROXY_FILE_PATH` attribute, which no other method reads, and leaves the
operative `PROXY_PATH` untouched — so reconfiguring the proxy source
file silently has no effect, contradicting the partial-update contract
that supplied fields overwrite the prior value.  A `debug`-only call
does preserve every other field, as the claim states. -/
theorem c9_config_proxy_path_dead :
    (config ⟨15, 5, true, some "old.txt", none, none, false⟩
        none none none (some "new.txt") none none).PROXY_PATH = some "old.txt"
    ∧ (config ⟨15, 5, true, some "old.txt", none, none, false⟩
        none none none (some "new.txt") none none).PROXY_FILE_PATH = some "new.txt"
    ∧ config ⟨15, 5, true, some "old.txt", none, none, false⟩
        none none none none none (some true)
        = ⟨15, 5, true, some "old.txt", none, none, true⟩ := by
  decide

/-- A clean line-delimited pool file: each entry followed by a newline. -/
def fileContent (entries : List (List Char)) : List Char :=
  (entries.map (fun e => e ++ ['\n'])).flatten

/-- Claim C5, counterexample: rotating `"p"` in the file `"p\np\nq\n"`
rewrites it to `"q\np\nq\n"` — both occurrences of `"p"` are removed
(duplicates are collapsed, not preserved) and, because the file is not
truncated, a stale copy of `"q"` survives past the written region — not
the remove-first-occurrence-and-append layout the claim predicts. -/
theorem c5_counterexample :
    switchProxyFile "p\np\nq\n".toList "p".toList = "q\np\nq\n".toList
    ∧ ¬ (switchProxyFile "p\np\nq\n".toList "p".toList
        = ((splitLinesKeep "p\np\nq\n".toList []).erase "p\n".toList).flatten
            ++ "p\n".toList)
    ∧ (splitLinesKeep (switchProxyFile "p\np\nq\n".toList "p".toList) []).count
        "p\n".toList = 1
    ∧ (splitLinesKeep "p\np\nq\n".toList []).count "p\n".toList = 2 := by
  decide

/-- Claim C5, amended: the rewrite removes every line whose stripped
content equals the endpoint (not only the first) and appends the
endpoint with a newline, without truncating the file.  When the
well-formed pool contains the endpoint exactly once, the written content
has the old content's length, so the backing file ends up containing
exactly the unaffected lines in their original order followed by the
rotated entry — remove-first-occurrence-and-append. -/
theorem c5_file_rotation (A B : List (List Char)) (proxy : List Char)
    (hA : proxy ∉ A) (hB : proxy ∉ B)
    (hwf : ∀ e ∈ A ++ proxy :: B, e ≠ [] ∧ ∀ c ∈ e, c.isWhitespace = false) :
    switchProxyFile (fileContent (A ++ proxy :: B)) proxy
      = fileContent (((A ++ proxy :: B).erase proxy) ++ [proxy]) := by
  have hnl : ∀ e ∈ A ++ proxy :: B, '\n' ∉ e := by
    intro e he hmem
    have := (hwf e he).2 _ hmem
    simp at this
  have hlines : splitLinesKeep (fileContent (A ++ proxy :: B)) []
      = (A ++ proxy :: B).map (fun e => e ++ ['\n']) := by
    exact splitLinesKeep_flatten _ hnl
  have hfilter : ((A ++ proxy :: B).map (fun e => e ++ ['\n'])).filter
        (fun line => stripChars line != proxy)
      = ((A ++ B).map (fun e => e ++ ['\n'])) := by
    rw [List.filter_map]
    have hcongr : (A ++ proxy :: B).filter
          ((fun line => stripChars line != proxy) ∘ (fun e => e ++ ['\n']))
        = (A ++ proxy :: B).filter (fun e => e != proxy) := by
      apply List.filter_congr
      intro e he
      have hs := stripChars_append_newline e (hwf e he).1 (hwf e he).2
      simp [Function.comp, hs]
    rw [hcongr]
    congr 1
    rw [List.filter_append]
    have hAkeep : A.filter (fun e => e != proxy) = A := by
      rw [List.filter_eq_self]
      intro a ha
      simp
      exact fun h => hA (h ▸ ha)
    have hBkeep : B.filter (fun e => e != proxy) = B := by
      rw [List.filter_eq_self]
      intro b hb
      simp
      exact fun h => hB (h ▸ hb)
    rw [hAkeep]
    congr 1
    rw [List.filter_cons]
    simp [hBkeep]
  have herase : (A ++ proxy :: B).erase proxy = A ++ B := by
    rw [List.erase_append_right _ hA, List.erase_cons_head]
  have hlen : (((A ++ B).map (fun e => e ++ ['\n'])).flatten ++ proxy ++ ['\n']).length
      = (fileContent (A ++ proxy :: B)).length := by
    simp [fileContent, List.map_map, Function.comp]
    omega
  simp only [switchProxyFile, hlines, hfilter]
  rw [hlen, List.drop_length, List.append_nil]
  rw [herase]
  simp [fileContent]

/-- Witness for C5: rotating `"a"` in the two-line file `"a\nb\n"`
yields `"b\na\n"`. -/
theorem c5_file_rotation_witness :
    switchProxyFile (fileContent [['a'], ['b']]) ['a'] = fileContent [['b'], ['a']] :=
  c5_file_rotation [] [['b']] ['a'] (by decide) (by decide) (by decide)

end HltvAio
